import Mathlib

/-!
Verification of the `worker-coactivo` backend worker.

The repository is a single Express request handler plus helper functions
(`extraerTexto`, `obtenerAnalisisIA`, `actualizarExpediente`,
`generarDocumentoIA`, `generarDocxDesdeMarkdown`,
`formatearAnalisisComoTexto`).  JavaScript strings are embedded as
`List Char`; the fallible steps are embedded as `Except` values; the
provider/storage collaborators of the request handler are embedded as an
explicit environment record, and the handler itself as a function that
also returns the trace of collaborator calls it performed.
-/

set_option autoImplicit false

namespace Coactivo

/-- Characters of a string literal; JavaScript strings are embedded as `List Char`. -/
def cs (s : String) : List Char := s.data

/-- The opening brace character. -/
def llaveAbre : Char := '\x7b'

/-- The closing brace character. -/
def llaveCierra : Char := '\x7d'

/-- Whitespace as trimmed by JavaScript `String.prototype.trim` (the ASCII
part of the set, which is all the repository's data exercises). -/
def esEspacioJS (c : Char) : Bool :=
  c = ' ' || c = '\t' || c = '\n' || c = '\r' || c = '\x0b' || c = '\x0c'

/-- JavaScript `s.trim()`: drop leading and trailing whitespace. -/
def trimJS (l : List Char) : List Char :=
  ((l.dropWhile esEspacioJS).reverse.dropWhile esEspacioJS).reverse

/-- JavaScript `texto.split("\n")` (a split on a one-character separator
keeps empty segments, and `"".split` gives one empty segment). -/
def separaLineas : List Char → List (List Char)
  | [] => [[]]
  | '\n' :: resto =>
    [] :: separaLineas resto
  | c :: resto =>
    match separaLineas resto with
    | [] => [[c]]
    | s :: ss => (c :: s) :: ss

/-- JavaScript `String.prototype.startsWith` on character lists. -/
def empiezaCon : List Char → List Char → Bool
  | [], _ => true
  | _ :: _, [] => false
  | c :: cresto, d :: dresto => c == d && empiezaCon cresto dresto

/-- JavaScript `String.prototype.endsWith` on character lists. -/
def terminaCon (sufijo : List Char) (l : List Char) : Bool :=
  empiezaCon sufijo.reverse l.reverse

/-- JavaScript `String.prototype.toLowerCase` (ASCII part, which is all the
file-extension dispatch needs). -/
def aMinusculas (l : List Char) : List Char := l.map Char.toLower

/-- Split a character list at the first occurrence of the two-character
delimiter `**`, scanning left to right: `some (antes, despues)` when the
delimiter occurs, with the delimiter itself consumed. -/
def parteEnEstrellas : List Char → Option (List Char × List Char)
  | '*' :: '*' :: resto => some ([], resto)
  | c :: resto =>
    (parteEnEstrellas resto).map (fun p => (c :: p.1, p.2))
  | [] => none

/-- Recursion core of `parteNegritas`; the fuel argument only bounds the
recursion depth and is always supplied no smaller than the input length,
which each step shrinks by at least four. -/
def parteNegritasAux : Nat → List Char → List (List Char)
  | 0, l => [l]
  | combustible + 1, l =>
    match parteEnEstrellas l with
    | none => [l]
    | some (antes, resto) =>
      match parteEnEstrellas resto with
      | none => [l]
      | some (captura, resto2) => antes :: captura :: parteNegritasAux combustible resto2

/-- JavaScript `linea.split(/\*\*(.*?)\*\*/g)`: the regex engine repeatedly
finds the leftmost pair of `**` delimiters (the lazy group pairs each `**`
with the next one); every segment, including empty ones, is kept, and an
unpaired trailing `**` stays inside the final segment because the regex no
longer matches there.  Even-indexed results are the text between matches,
odd-indexed results are the captured groups. -/
def parteNegritas (l : List Char) : List (List Char) :=
  parteNegritasAux l.length l

/-- A docx `TextRun`: a text span that is either bold or plain. -/
structure Run where
  texto : List Char
  negrita : Bool
deriving DecidableEq, Repr

/-- The runs built from the segments of `parteNegritas`, mirroring
`.map((t, i) => i % 2 === 1 ? new TextRun({text: t, bold: true}) : new TextRun(t))`:
odd-indexed segments become bold runs. -/
def runsDeSegmentos : List (List Char) → List Run
  | [] => []
  | [s] => [⟨s, false⟩]
  | s :: captura :: resto => ⟨s, false⟩ :: ⟨captura, true⟩ :: runsDeSegmentos resto

/-- One paragraph block of the generated Word document, one constructor per
branch of `generarDocxDesdeMarkdown`'s per-line mapping.  The styling each
branch attaches (alignment, font, size, spacing) is presentation-only and
not part of the structural embedding:
* `titulo1`/`titulo2`/`titulo3` are the `# `/`## `/`### ` branches
  (centered or left bold text);
* `vacio` is the blank-line branch `new Paragraph({ text: "" })`, a
  paragraph with no text content;
* `parrafo` is the default branch with its bold/plain runs. -/
inductive Bloque where
  | titulo1 (texto : List Char)
  | titulo2 (texto : List Char)
  | titulo3 (texto : List Char)
  | vacio
  | parrafo (runs : List Run)
deriving DecidableEq, Repr

/-- The per-line mapping of `generarDocxDesdeMarkdown`: trim the line; an
empty result is a blank paragraph; otherwise dispatch on the `# `, `## `,
`### ` markers (the anchored `replace(/^# /, "")` under the `startsWith`
guard removes exactly the marker); otherwise split the bold markers. -/
def traducirLinea (linea : List Char) : Bloque :=
  let textoLimpio := trimJS linea
  if textoLimpio = [] then .vacio
  else if empiezaCon (cs "# ") textoLimpio then .titulo1 (textoLimpio.drop 2)
  else if empiezaCon (cs "## ") textoLimpio then .titulo2 (textoLimpio.drop 3)
  else if empiezaCon (cs "### ") textoLimpio then .titulo3 (textoLimpio.drop 4)
  else .parrafo (runsDeSegmentos (parteNegritas textoLimpio))

/-- `generarDocxDesdeMarkdown`'s structural content: split the text on
newlines and map each line to its paragraph block. -/
def generarDocxDesdeMarkdown (texto : List Char) : List Bloque :=
  (separaLineas texto).map traducirLinea

/-- The text content of a block: a heading's text, or the concatenation of
a paragraph's run texts in order. -/
def textoDeBloque : Bloque → List Char
  | .titulo1 t => t
  | .titulo2 t => t
  | .titulo3 t => t
  | .vacio => []
  | .parrafo runs => (runs.map Run.texto).flatten

/-- The characters of the opening fence marker with its language tag. -/
def marcaFenceJson : List Char := cs "\x60\x60\x60json"

/-- The characters of a bare fence marker. -/
def marcaFence : List Char := cs "\x60\x60\x60"

/-- Recursion core of `quitaFences`; the fuel argument only bounds the
recursion depth and is always supplied no smaller than the input length. -/
def quitaFencesAux : Nat → List Char → List Char
  | 0, l => l
  | _ + 1, [] => []
  | combustible + 1, c :: resto =>
    if empiezaCon marcaFenceJson (c :: resto) then quitaFencesAux combustible ((c :: resto).drop 7)
    else if empiezaCon marcaFence (c :: resto) then quitaFencesAux combustible ((c :: resto).drop 3)
    else c :: quitaFencesAux combustible resto

/-- JavaScript `textoIA.replace(/\x60\x60\x60json|\x60\x60\x60/g, "")`:
delete every occurrence of the tagged or bare fence marker, scanning left
to right with the longer alternative tried first at each position. -/
def quitaFences (l : List Char) : List Char :=
  quitaFencesAux l.length l

/-- The span from the first opening brace through the last closing brace,
or the empty list when the text has no closing brace after its first
opening brace. -/
def nucleoLlaves (l : List Char) : List Char :=
  ((l.dropWhile (fun c => c != llaveAbre)).reverse.dropWhile
    (fun c => c != llaveCierra)).reverse

/-- The `replace(/[^\x7b]*(\x7b[\s\S]*\x7d)[^\x7d]*$/, "$1")` step: when the
text has an opening brace with some closing brace after it, the regex
matches the whole string and keeps the first `{` through the last `}`;
otherwise the regex does not match and the text is returned unchanged. -/
def extraeLlaves (l : List Char) : List Char :=
  if nucleoLlaves l = [] then l else nucleoLlaves l

/-- Whitespace accepted by `JSON.parse` between tokens. -/
def esEspacioJson (c : Char) : Bool :=
  c = ' ' || c = '\t' || c = '\n' || c = '\r'

/-- Skip inter-token JSON whitespace. -/
def saltaEspacios (l : List Char) : List Char := l.dropWhile esEspacioJson

/-- A parsed JSON value: `null`, booleans, numbers, strings, objects and
arrays.  A number keeps its source lexeme: the worker never computes with
a numeric field, so the IEEE-double reading of the lexeme is presentation
the embedding does not need. -/
inductive JsonVal where
  | nulo
  | booleano (b : Bool)
  | num (lexema : List Char)
  | cad (s : List Char)
  | obj (campos : List (List Char × JsonVal))
  | lista (elems : List JsonVal)

/-- The numeric value of a hexadecimal digit. -/
def valorHex (c : Char) : Option Nat :=
  if '0' ≤ c ∧ c ≤ '9' then some (c.toNat - 48)
  else if 'a' ≤ c ∧ c ≤ 'f' then some (c.toNat - 87)
  else if 'A' ≤ c ∧ c ≤ 'F' then some (c.toNat - 55)
  else none

/-- The character denoted by a single-character JSON escape sequence. -/
def descapa : Char → Option Char
  | '"' => some '"'
  | '\\' => some '\\'
  | '/' => some '/'
  | 'b' => some '\x08'
  | 'f' => some '\x0c'
  | 'n' => some '\n'
  | 'r' => some '\r'
  | 't' => some '\t'
  | _ => none

/-- Read the body of a JSON string after its opening quote, decoding the
escape sequences of the JSON grammar; returns the decoded characters and
the rest of the input after the closing quote.  An unescaped control
character (below U+0020) is rejected, as the strict grammar demands.  (A
`\u` escape naming a lone UTF-16 surrogate half falls outside `Char`'s
scalar range and decodes to the null character; acceptance is
unaffected.) -/
def leeCadena : List Char → Option (List Char × List Char)
  | '"' :: resto => some ([], resto)
  | '\\' :: 'u' :: h1 :: h2 :: h3 :: h4 :: resto =>
    match valorHex h1, valorHex h2, valorHex h3, valorHex h4 with
    | some a, some b, some c, some d =>
      (leeCadena resto).map (fun p => (Char.ofNat (((a * 16 + b) * 16 + c) * 16 + d) :: p.1, p.2))
    | _, _, _, _ => none
  | '\\' :: e :: resto =>
    match descapa e with
    | some c => (leeCadena resto).map (fun p => (c :: p.1, p.2))
    | none => none
  | c :: resto =>
    if c.toNat < 32 then none
    else (leeCadena resto).map (fun p => (c :: p.1, p.2))
  | [] => none

/-- Whether a character is a decimal digit. -/
def esDigito (c : Char) : Bool := '0' ≤ c && c ≤ '9'

/-- The longest run of decimal digits at the head of the input, and the
rest. -/
def leeDigitos : List Char → List Char × List Char
  | c :: resto =>
    if esDigito c then
      match leeDigitos resto with
      | (d, r) => (c :: d, r)
    else ([], c :: resto)
  | [] => ([], [])

/-- The integer part of a JSON number: a single `0`, or a nonzero digit
followed by digits (the grammar forbids leading zeros). -/
def leeEntero : List Char → Option (List Char × List Char)
  | '0' :: resto => some (['0'], resto)
  | c :: resto =>
    if esDigito c then
      match leeDigitos resto with
      | (d, r) => some (c :: d, r)
    else none
  | [] => none

/-- The optional fraction part of a JSON number: a `.` must be followed by
at least one digit. -/
def leeFraccion : List Char → Option (List Char × List Char)
  | '.' :: resto =>
    match leeDigitos resto with
    | ([], _) => none
    | (d, r) => some ('.' :: d, r)
  | l => some ([], l)

/-- The optional exponent part of a JSON number: `e` or `E`, an optional
sign, then at least one digit. -/
def leeExponente : List Char → Option (List Char × List Char)
  | c :: resto =>
    if c = 'e' || c = 'E' then
      match resto with
      | s :: resto2 =>
        if s = '+' || s = '-' then
          match leeDigitos resto2 with
          | ([], _) => none
          | (d, r) => some (c :: s :: d, r)
        else
          match leeDigitos (s :: resto2) with
          | ([], _) => none
          | (d, r) => some (c :: d, r)
      | [] => none
    else some ([], c :: resto)
  | [] => some ([], [])

/-- A JSON number after its optional minus sign: integer part, optional
fraction, optional exponent, returned as the lexeme and the rest. -/
def leeNumeroSinSigno (l : List Char) : Option (List Char × List Char) :=
  match leeEntero l with
  | none => none
  | some (i, r1) =>
    match leeFraccion r1 with
    | none => none
    | some (f, r2) =>
      match leeExponente r2 with
      | none => none
      | some (e, r3) => some (i ++ f ++ e, r3)

/-- A JSON number per the strict grammar
`-?(0|[1-9][0-9]*)(\.[0-9]+)?([eE][+-]?[0-9]+)?`. -/
def leeNumero : List Char → Option (List Char × List Char)
  | '-' :: resto => (leeNumeroSinSigno resto).map (fun p => ('-' :: p.1, p.2))
  | l => leeNumeroSinSigno l

mutual

/-- Parse one JSON value, skipping leading whitespace: `null`, `true`,
`false`, a string, an array, an object, or a number.  The fuel argument
bounds the recursion and is always given larger than the input length,
which exceeds the nesting depth any accepted input can reach. -/
def parseValor : Nat → List Char → Option (JsonVal × List Char)
  | 0, _ => none
  | combustible + 1, l =>
    match saltaEspacios l with
    | 'n' :: 'u' :: 'l' :: 'l' :: resto => some (.nulo, resto)
    | 't' :: 'r' :: 'u' :: 'e' :: resto => some (.booleano true, resto)
    | 'f' :: 'a' :: 'l' :: 's' :: 'e' :: resto => some (.booleano false, resto)
    | '"' :: resto => (leeCadena resto).map (fun p => (.cad p.1, p.2))
    | '[' :: resto =>
      match saltaEspacios resto with
      | ']' :: resto2 => some (.lista [], resto2)
      | otro => (parseElems combustible otro).map (fun p => (.lista p.1, p.2))
    | c :: resto =>
      if c = llaveAbre then
        match saltaEspacios resto with
        | d :: resto2 =>
          if d = llaveCierra then some (.obj [], resto2)
          else (parseCampos combustible (d :: resto2)).map (fun p => (.obj p.1, p.2))
        | [] => none
      else
        (leeNumero (c :: resto)).map (fun p => (.num p.1, p.2))
    | [] => none

/-- Parse the elements of a JSON array, positioned at the first element;
returns the elements in order and the input after the closing bracket. -/
def parseElems : Nat → List Char → Option (List JsonVal × List Char)
  | 0, _ => none
  | combustible + 1, l =>
    match parseValor combustible l with
    | none => none
    | some (v, resto) =>
      match saltaEspacios resto with
      | ',' :: resto2 =>
        match parseElems combustible resto2 with
        | none => none
        | some (vs, resto3) => some (v :: vs, resto3)
      | ']' :: resto2 => some ([v], resto2)
      | _ => none

/-- Parse the members of a JSON object, positioned at the first key;
returns the fields in source order and the input after the closing
brace. -/
def parseCampos : Nat → List Char → Option (List (List Char × JsonVal) × List Char)
  | 0, _ => none
  | combustible + 1, l =>
    match saltaEspacios l with
    | '"' :: resto =>
      match leeCadena resto with
      | none => none
      | some (clave, resto2) =>
        match saltaEspacios resto2 with
        | ':' :: resto3 =>
          match parseValor combustible resto3 with
          | none => none
          | some (v, resto4) =>
            match saltaEspacios resto4 with
            | ',' :: resto5 =>
              match parseCampos combustible resto5 with
              | none => none
              | some (campos, resto6) => some ((clave, v) :: campos, resto6)
            | d :: resto5 =>
              if d = llaveCierra then some ([(clave, v)], resto5) else none
            | [] => none
        | _ => none
    | _ => none

end

/-- `JSON.parse`: parse one value of the strict JSON grammar and require
that only whitespace remains. -/
def parseJson (l : List Char) : Option JsonVal :=
  match parseValor (l.length + 1) l with
  | some (v, resto) => if saltaEspacios resto = [] then some v else none
  | none => none

/-- The cleaning-and-parse step of `obtenerAnalisisIA`: strip fence
markers, keep the first `{` through the last `}`, trim, and strictly
parse, with a parse failure raising the fixed error message. -/
def limpiarYParsear (textoIA : List Char) : Except (List Char) JsonVal :=
  match parseJson (trimJS (extraeLlaves (quitaFences textoIA))) with
  | some v => .ok v
  | none => .error (cs "Error al parsear respuesta de la IA")

/-- `obtenerAnalisisIA` after the provider envelope:
`data?.choices?.[0]?.message?.content?.trim() || "\x7b\x7d"` substitutes
the literal two-character object text when the content is absent or trims
to the empty string, then the cleaning-and-parse step runs. -/
def obtenerAnalisisIA_nucleo (contenido : Option (List Char)) : Except (List Char) JsonVal :=
  let textoIA := match contenido with
    | some c => if trimJS c = [] then cs "\x7b\x7d" else trimJS c
    | none => cs "\x7b\x7d"
  limpiarYParsear textoIA

/-- Whether a JSON number lexeme denotes zero — the falsy numbers of
JavaScript (`0`, `-0`, `0.0`, `0e5`, …): no nonzero digit may appear
before the exponent marker.  (`NaN`, the other falsy number, cannot come
out of `JSON.parse`.) -/
def esCeroJson (lexema : List Char) : Bool :=
  (lexema.takeWhile (fun c => c != 'e' && c != 'E')).all
    (fun c => !('1' ≤ c && c ≤ '9'))

/-- JavaScript `x || d` where `x` is a property read of the parsed
analysis: `undefined` (absent key), `null`, `false`, a zero number and
the empty string are falsy and select the default; everything else —
other strings and numbers, `true`, objects and arrays — is truthy. -/
def jsOr : Option JsonVal → JsonVal → JsonVal
  | none, d => d
  | some .nulo, d => d
  | some (.booleano b), d => if b then .booleano true else d
  | some (.num lexema), d => if esCeroJson lexema then d else .num lexema
  | some (.cad s), d => if s = [] then d else .cad s
  | some (.obj campos), _ => .obj campos
  | some (.lista elems), _ => .lista elems

/-- JavaScript property lookup on a parsed object literal: the last
assignment to a repeated key wins; an absent key reads as `undefined`. -/
def buscaCampo (campos : List (List Char × JsonVal)) (clave : List Char) : Option JsonVal :=
  campos.foldl (fun acc par => if par.1 = clave then some par.2 else acc) none

/-- Property access `json.clave` on a parsed value: only objects carry the
schema's properties; on a string or `null` result the worker would read
`undefined`. -/
def accedeCampo (v : JsonVal) (clave : List Char) : Option JsonVal :=
  match v with
  | .obj campos => buscaCampo campos clave
  | _ => none

/-- The row update written by `actualizarExpediente`. -/
structure ActualizacionExpediente where
  titulo : JsonVal
  semaforo : JsonVal
  observaciones : JsonVal

/-- The update payload of `actualizarExpediente`:
`titulo: json.tipo_titulo || ""`, `semaforo: json.semaforo || "ROJO"`,
`observaciones: json.observacion || ""`. -/
def actualizarExpediente_datos (json : JsonVal) : ActualizacionExpediente where
  titulo := jsOr (accedeCampo json (cs "tipo_titulo")) (.cad [])
  semaforo := jsOr (accedeCampo json (cs "semaforo")) (.cad (cs "ROJO"))
  observaciones := jsOr (accedeCampo json (cs "observacion")) (.cad [])

mutual

/-- How a template literal stringifies the value selected by `jsOr`.  A
number prints as its lexeme (the exponential-notation normalization of
JavaScript's double printing is not modelled; no analysis field is read
as a number by any claim); an array joins its elements with commas, a
`null` element printing as the empty string, as `Array.prototype.toString`
does. -/
def comoTexto : JsonVal → List Char
  | .cad s => s
  | .nulo => cs "null"
  | .booleano true => cs "true"
  | .booleano false => cs "false"
  | .num lexema => lexema
  | .obj _ => cs "[object Object]"
  | .lista elems => comoTextoLista elems

/-- Comma-joined array elements of a template-literal rendering. -/
def comoTextoLista : List JsonVal → List Char
  | [] => []
  | [JsonVal.nulo] => []
  | [v] => comoTexto v
  | JsonVal.nulo :: resto => ',' :: comoTextoLista resto
  | v :: resto => comoTexto v ++ ',' :: comoTextoLista resto

end

/-- One `${analisis.campo || "No disponible"}` interpolation of
`formatearAnalisisComoTexto`. -/
def leeCampoFormateado (analisis : JsonVal) (clave : List Char) : List Char :=
  comoTexto (jsOr (accedeCampo analisis clave) (.cad (cs "No disponible")))

/-- `formatearAnalisisComoTexto`: the trimmed template literal listing the
eight analysis fields, each interpolated with the "No disponible"
fallback. -/
def formatearAnalisisComoTexto (analisis : JsonVal) : List Char :=
  trimJS (cs "\nNombre del deudor: " ++ leeCampoFormateado analisis (cs "nombre")
    ++ cs "\nEntidad: " ++ leeCampoFormateado analisis (cs "entidad")
    ++ cs "\nValor total: " ++ leeCampoFormateado analisis (cs "valor")
    ++ cs "\nFecha de resolución: " ++ leeCampoFormateado analisis (cs "fecha_resolucion")
    ++ cs "\nFecha de ejecutoria: " ++ leeCampoFormateado analisis (cs "fecha_ejecutoria")
    ++ cs "\nTipo de título: " ++ leeCampoFormateado analisis (cs "tipo_titulo")
    ++ cs "\nSemáforo: " ++ leeCampoFormateado analisis (cs "semaforo")
    ++ cs "\nObservación: " ++ leeCampoFormateado analisis (cs "observacion")
    ++ cs "\n  ")

/-- The fixed part of the drafting prompt of `generarDocumentoIA`
(part_000 revision), up to the interpolation of the formatted analysis.
Both the VERDE/AMARILLO payment-order instructions and the ROJO
diagnostic instructions are plain text inside this single prompt. -/
def promptDocumentoTexto : List Char :=
  cs "\nADVERTENCIA: SOLO GENERA LO PEDIDO, NO AÑADAS TEXTO DE INTRODUCCION TUYO NI QUE VAS A REALIZAR LA TAREA, CUMPLE LO PEDIDO Y DEVUELVE EL TEXTO LIMPIO SIGUIENDO LAS INSTRUCCIONES\n\nEn caso de que el semaforo sea VERDE u AMARILLO:\n\n"
    ++ cs "Siguiendo lo que dice el artículo 826 del Estatuto Tributario:\nGenera el texto completo y estructurado de un MANDAMIENTO DE PAGO en formato legal colombiano.\nUsa lenguaje jurídico formal, propio de actos administrativos, y estructura con títulos (#), subtítulos (##) y negritas (**texto**).\nEl documento debe incluir las siguientes secciones en este orden:\n"
    ++ cs "1. ENCABEZADO\n   - Título principal en mayúsculas Y CENTRADO: MANDAMIENTO DE PAGO\n   - Nombre de la entidad que emite el acto (por ejemplo: INSTITUTO DE DESARROLLO URBANO – IDU)\n   - Lugar y fecha de expedición\n   - Número o radicado del expediente\n"
    ++ cs "2. CONSIDERANDO\n   - Explica brevemente la competencia jurídica para el cobro coactivo según los artículos 823 a 829 del Estatuto Tributario Nacional y demás normas aplicables.\n   - Resume los hechos: la existencia del título ejecutivo, su ejecutoria, y el monto adeudado.\n"
    ++ cs "3. RESUELVE QUE\n   - Ordena el pago de la obligación al deudor dentro del plazo legal (10 días hábiles).\n   - Indica que en caso de incumplimiento se procederá con embargo y secuestro de bienes.\n   - Menciona que contra este mandamiento no procede recurso, conforme al procedimiento coactivo.\n"
    ++ cs "4. FIRMA Y AUTORIZACIÓN\n   - Nombre y cargo del funcionario competente que emite el acto.\n   - Espacio para firma y sello institucional.\nUsa un lenguaje jurídico claro y formal, propio de actos administrativos colombianos.\nCada sección debe comenzar con su respectivo título en mayúsculas.\nUsa saltos de línea claros y evita listas o numeraciones Markdown.\n"
    ++ cs "Usa títulos (#), subtítulos (##) y negritas (**texto**) para dar formato como si fuese un documento WORD, pero solo devuelve texto plano con esas reglas.\nDatos para usar en el documento:\nDatos del expediente:\n\n4. FIRMA Y AUTORIZACIÓN\n\nCada sección debe comenzar con su respectivo título en mayúsculas.\nUsa saltos de línea claros y evita listas o numeraciones Markdown.\nno pongas 1., 2... solo pon por ejemplo: CONSIDERANDO!\n\n"
    ++ cs "EN CASO QUE EL SEMAFORO SEA ROJO:\nGENERA EL TEXTO COMPLETO DE UN DIAGNOSTICO DE UN TITULO EJECUTIVO NO VALIDO POR CIERTOS MOTIVOS QUE DEBERÁS ANALIZAR Y DAR A ENTENDER A UN ABOGADO.\nDatos del expediente:\n"

/-- The full drafting prompt: fixed text with the formatted analysis
interpolated before the final newline. -/
def promptDocumento (datosTexto : List Char) : List Char :=
  promptDocumentoTexto ++ datosTexto ++ cs "\n"

/-- The pre-call computation of `generarDocumentoIA`: format the analysis,
build the prompt, and proceed to the chat-completion request.  The step
inspects `semaforo` nowhere; the VERDE/AMARILLO versus ROJO template
choice is delegated to the model inside the prompt text, so this step
never fails before the provider call. -/
def generarDocumentoIA_paso (analisis : JsonVal) : Except (List Char) (List Char) :=
  .ok (promptDocumento (formatearAnalisisComoTexto analisis))

/-- The two supported extraction routes of `extraerTexto`. -/
inductive RutaExtraccion where
  | pdf
  | docx
deriving DecidableEq, Repr

/-- The file-kind dispatch of `extraerTexto`: a case-insensitive extension
test, PDF first, then the word-processor route, otherwise the
unsupported-format error. -/
def extraerTexto_despacho (archivoPath : List Char) : Except (List Char) RutaExtraccion :=
  if terminaCon (cs ".pdf") (aMinusculas archivoPath) then .ok .pdf
  else if terminaCon (cs ".docx") (aMinusculas archivoPath) then .ok .docx
  else .error (cs "Formato de archivo no soportado")

/-- The collaborator calls the request handler can make, in the order the
handler makes them. -/
inductive Evento where
  | descargaStorage
  | libreriaExtraccion
  | llamadaIAAnalisis
  | actualizacionBaseDatos
  | llamadaIADocumento
  | subidaStorage
deriving DecidableEq, Repr

/-- The outcomes of the handler's external collaborators for one request:
the bucket download, the text-extraction library, the two chat-completion
envelopes (a provider error or an optional message content), the database
update, and the upload returning the public URL. -/
structure Entorno where
  descarga : Except (List Char) (List Nat)
  extraccionLibreria : List Nat → Except (List Char) (List Char)
  respuestaAnalisis : List Char → Except (List Char) (Option (List Char))
  persistencia : ActualizacionExpediente → Except (List Char) Unit
  respuestaDocumento : List Char → Except (List Char) (Option (List Char))
  subida : List Bloque → Except (List Char) (List Char)

/-- `data?.choices?.[0]?.message?.content?.trim() || ""` of the document
call. -/
def textoMandamientoDe : Option (List Char) → List Char
  | none => []
  | some s => trimJS s

/-- The handler's HTTP result: `res.json({ok: true, analisis, docxUrl})`
on success, or the catch-all
`res.status(500).json({ok: false, error: err.message})`. -/
inductive Respuesta where
  | exito (analisis : JsonVal) (docxUrl : List Char)
  | fallo500 (mensaje : List Char)

/-- The `/procesar` request handler: the linear chain of the try block,
paired with the trace of collaborator calls actually made.  Any failing
step throws into the single catch, which produces the 500 response with
that step's error message, and no later collaborator is called. -/
def procesar (env : Entorno) (archivoPath : List Char) : Respuesta × List Evento :=
  match env.descarga with
  | .error e => (.fallo500 e, [.descargaStorage])
  | .ok buffer =>
    match extraerTexto_despacho archivoPath with
    | .error e => (.fallo500 e, [.descargaStorage])
    | .ok _ =>
      match env.extraccionLibreria buffer with
      | .error e => (.fallo500 e, [.descargaStorage, .libreriaExtraccion])
      | .ok textoExtraido =>
        match env.respuestaAnalisis textoExtraido with
        | .error e =>
          (.fallo500 e, [.descargaStorage, .libreriaExtraccion, .llamadaIAAnalisis])
        | .ok contenido =>
          match obtenerAnalisisIA_nucleo contenido with
          | .error e =>
            (.fallo500 e, [.descargaStorage, .libreriaExtraccion, .llamadaIAAnalisis])
          | .ok analisis =>
            match env.persistencia (actualizarExpediente_datos analisis) with
            | .error e =>
              (.fallo500 e,
                [.descargaStorage, .libreriaExtraccion, .llamadaIAAnalisis,
                  .actualizacionBaseDatos])
            | .ok _ =>
              match generarDocumentoIA_paso analisis with
              | .error e =>
                (.fallo500 e,
                  [.descargaStorage, .libreriaExtraccion, .llamadaIAAnalisis,
                    .actualizacionBaseDatos])
              | .ok prompt =>
                match env.respuestaDocumento prompt with
                | .error e =>
                  (.fallo500 e,
                    [.descargaStorage, .libreriaExtraccion, .llamadaIAAnalisis,
                      .actualizacionBaseDatos, .llamadaIADocumento])
                | .ok contenidoDoc =>
                  let bloques := generarDocxDesdeMarkdown (textoMandamientoDe contenidoDoc)
                  match env.subida bloques with
                  | .error e =>
                    (.fallo500 e,
                      [.descargaStorage, .libreriaExtraccion, .llamadaIAAnalisis,
                        .actualizacionBaseDatos, .llamadaIADocumento, .subidaStorage])
                  | .ok url =>
                    (.exito analisis url,
                      [.descargaStorage, .libreriaExtraccion, .llamadaIAAnalisis,
                        .actualizacionBaseDatos, .llamadaIADocumento, .subidaStorage])

/-- Recursion core of `sinNegritas`, with the same fuel discipline and the
same leftmost pairing of delimiters as `parteNegritasAux`. -/
def sinNegritasAux : Nat → List Char → List Char
  | 0, l => l
  | combustible + 1, l =>
    match parteEnEstrellas l with
    | none => l
    | some (antes, resto) =>
      match parteEnEstrellas resto with
      | none => l
      | some (captura, resto2) => antes ++ captura ++ sinNegritasAux combustible resto2

/-- "The paired `**` bold markers removed": delete each leftmost-matched
pair of `**` delimiters and keep all remaining characters, leaving an
unpaired trailing delimiter in place (the defined behavior for an odd
number of delimiters). -/
def sinNegritas (l : List Char) : List Char :=
  sinNegritasAux l.length l

/-- The text the amended claim C1 predicts for one input line: the trimmed
line, minus its heading marker when it is a heading line, minus the paired
bold markers otherwise. -/
def limpiaLinea (linea : List Char) : List Char :=
  let t := trimJS linea
  if t = [] then []
  else if empiezaCon (cs "# ") t then t.drop 2
  else if empiezaCon (cs "## ") t then t.drop 3
  else if empiezaCon (cs "### ") t then t.drop 4
  else sinNegritas t

/-- A concrete environment whose download step fails. -/
def entornoFalloDescarga : Entorno where
  descarga := .error (cs "Object not found")
  extraccionLibreria := fun _ => .error []
  respuestaAnalisis := fun _ => .error []
  persistencia := fun _ => .error []
  respuestaDocumento := fun _ => .error []
  subida := fun _ => .error []

/-- No opening brace followed anywhere later by a closing brace; exactly
the condition under which the brace-extraction regex has no match. -/
def sinParLlaves (l : List Char) : Bool :=
  (l.dropWhile (fun c => c != llaveAbre)).all (fun c => c != llaveCierra)

/-- Whether a bare fence marker occurs anywhere in the text. -/
def tieneFence : List Char → Bool
  | [] => false
  | c :: resto => empiezaCon marcaFence (c :: resto) || tieneFence resto

theorem parteEnEstrellas_eq : ∀ {l a b : List Char},
    parteEnEstrellas l = some (a, b) → l = a ++ '*' :: '*' :: b := by
  intro l
  induction l using parteEnEstrellas.induct with
  | case1 resto =>
    intro a b h
    simp only [parteEnEstrellas, Option.some.injEq, Prod.mk.injEq] at h
    obtain ⟨rfl, rfl⟩ := h
    simp
  | case2 c resto hne ih =>
    intro a b h
    simp only [parteEnEstrellas, Option.map_eq_some'] at h
    obtain ⟨⟨a', b'⟩, hp, hval⟩ := h
    obtain ⟨rfl, rfl⟩ := Prod.mk.injEq .. ▸ hval
    simpa using ih hp
  | case3 =>
    intro a b h
    simp [parteEnEstrellas] at h

theorem parteEnEstrellas_length : ∀ {l a b : List Char},
    parteEnEstrellas l = some (a, b) → b.length < l.length := by
  intro l a b h
  have := parteEnEstrellas_eq h
  subst this
  simp
  omega

theorem textoRuns_parteNegritasAux (combustible : Nat) : ∀ s : List Char,
    ((runsDeSegmentos (parteNegritasAux combustible s)).map Run.texto).flatten =
      sinNegritasAux combustible s := by
  induction combustible with
  | zero => intro s; simp [parteNegritasAux, sinNegritasAux, runsDeSegmentos]
  | succ n ih =>
    intro s
    simp only [parteNegritasAux, sinNegritasAux]
    cases h1 : parteEnEstrellas s with
    | none => simp [runsDeSegmentos]
    | some p1 =>
      obtain ⟨antes, resto⟩ := p1
      cases h2 : parteEnEstrellas resto with
      | none => simp [h2, runsDeSegmentos]
      | some p2 =>
        obtain ⟨captura, resto2⟩ := p2
        simp [h2, runsDeSegmentos, ih resto2]

theorem textoRuns_parteNegritas (s : List Char) :
    ((runsDeSegmentos (parteNegritas s)).map Run.texto).flatten = sinNegritas s :=
  textoRuns_parteNegritasAux s.length s

theorem textoDe_traducirLinea (linea : List Char) :
    textoDeBloque (traducirLinea linea) = limpiaLinea linea := by
  unfold traducirLinea limpiaLinea
  by_cases h0 : trimJS linea = []
  · simp [h0, textoDeBloque]
  · by_cases h1 : empiezaCon (cs "# ") (trimJS linea)
    · simp [h0, h1, textoDeBloque]
    · by_cases h2 : empiezaCon (cs "## ") (trimJS linea)
      · simp [h0, h1, h2, textoDeBloque]
      · by_cases h3 : empiezaCon (cs "### ") (trimJS linea)
        · simp [h0, h1, h2, h3, textoDeBloque]
        · simp [h0, h1, h2, h3, textoDeBloque, textoRuns_parteNegritas]

/-- Claim C1 (counterexample to the claim as stated): on the single-line
input " a" the per-line mapping trims the line before building its runs,
so concatenating the block's run texts yields "a", not the original line
" a" (which contains no markers to remove). -/
theorem C1_contraejemplo :
    (generarDocxDesdeMarkdown (cs " a")).map textoDeBloque ≠ [cs " a"] := by
  decide

/-- Claim C1 (amended): translating produces one block per input line, and
concatenating each block's run texts in order reproduces the TRIMMED line
with the heading marker removed on heading lines and the paired bold
markers removed on paragraph lines — the reconstruction is exact only up
to the per-line whitespace trimming the mapping performs first. -/
theorem C1_teorema (texto : List Char) :
    (generarDocxDesdeMarkdown texto).map textoDeBloque =
      (separaLineas texto).map limpiaLinea := by
  unfold generarDocxDesdeMarkdown
  rw [List.map_map]
  exact List.map_congr_left (fun linea _ => textoDe_traducirLinea linea)

/-- Claim C6 (counterexample): translating "# Title\n\n**Bold** and plain"
does not yield the claimed three blocks: the bold-split of the third line
yields a leading empty segment (the match starts at position 0), which
rule 5 keeps as a zero-length plain run, while the claimed run list omits
it. -/
theorem C6_contraejemplo :
    generarDocxDesdeMarkdown (cs "# Title\n\n**Bold** and plain") ≠
      [Bloque.titulo1 (cs "Title"), Bloque.vacio,
        Bloque.parrafo [⟨cs "Bold", true⟩, ⟨cs " and plain", false⟩]] := by
  decide

/-- Claim C6 (amended): translating "# Title\n\n**Bold** and plain" yields
exactly the heading block, the blank paragraph, and a paragraph whose runs
are the zero-length plain run, the bold "Bold" run and the plain " and
plain" run, in that order. -/
theorem C6_teorema :
    generarDocxDesdeMarkdown (cs "# Title\n\n**Bold** and plain") =
      [Bloque.titulo1 (cs "Title"), Bloque.vacio,
        Bloque.parrafo [⟨[], false⟩, ⟨cs "Bold", true⟩, ⟨cs " and plain", false⟩]] := by
  decide

/-- Claim C9: the translator produces exactly one block per
newline-separated input line and in the same order: the block count equals
the line count, and the i-th block is the translation of the i-th line. -/
theorem C9_teorema (texto : List Char) :
    (generarDocxDesdeMarkdown texto).length = (separaLineas texto).length ∧
      ∀ i : Nat, (generarDocxDesdeMarkdown texto)[i]? =
        ((separaLineas texto)[i]?).map traducirLinea := by
  constructor
  · simp [generarDocxDesdeMarkdown]
  · intro i
    simp [generarDocxDesdeMarkdown]

/-- Claim C10: when the analysis envelope carries no message content
(absent content, or content that trims to the empty string), the literal
object text is substituted and the empty object is returned successfully,
even though such a response contains no braces of its own. -/
theorem C10_teorema :
    obtenerAnalisisIA_nucleo none = .ok (.obj []) ∧
      ∀ c : List Char, trimJS c = [] → obtenerAnalisisIA_nucleo (some c) = .ok (.obj []) := by
  refine ⟨rfl, fun c h => ?_⟩
  have hred : obtenerAnalisisIA_nucleo (some c) =
      limpiarYParsear (if trimJS c = [] then cs "\x7b\x7d" else trimJS c) := rfl
  rw [hred, h]
  rfl

/-- Witness for C10 at the concrete whitespace-only content "  ". -/
theorem C10_testigo : obtenerAnalisisIA_nucleo (some (cs "  ")) = .ok (.obj []) :=
  C10_teorema.2 (cs "  ") (by decide)

/-- Claim C4 (counterexample to the claim as stated): the drafting-side
consumer `formatearAnalisisComoTexto` reads every field of the empty
parsed object as "No disponible", not as the empty string (and its
semaforo line reads "No disponible", not "ROJO"). -/
theorem C4_contraejemplo :
    formatearAnalisisComoTexto (JsonVal.obj []) =
      cs "Nombre del deudor: No disponible\nEntidad: No disponible\nValor total: No disponible\nFecha de resolución: No disponible\nFecha de ejecutoria: No disponible\nTipo de título: No disponible\nSemáforo: No disponible\nObservación: No disponible" ∧
      leeCampoFormateado (JsonVal.obj []) (cs "nombre") ≠ [] :=
  ⟨rfl, by decide⟩

/-- Claim C4 (amended): the persistence step writes `titulo = ""`,
`semaforo = "ROJO"` and `observaciones = ""` for every parsed analysis
object in which those keys are absent; the drafting-side reader instead
defaults absent fields to "No disponible". -/
theorem C4_teorema (campos : List (List Char × JsonVal))
    (h1 : buscaCampo campos (cs "tipo_titulo") = none)
    (h2 : buscaCampo campos (cs "semaforo") = none)
    (h3 : buscaCampo campos (cs "observacion") = none) :
    actualizarExpediente_datos (.obj campos) =
      ⟨.cad [], .cad (cs "ROJO"), .cad []⟩ := by
  have hred : actualizarExpediente_datos (.obj campos) =
      ⟨jsOr (buscaCampo campos (cs "tipo_titulo")) (.cad []),
        jsOr (buscaCampo campos (cs "semaforo")) (.cad (cs "ROJO")),
        jsOr (buscaCampo campos (cs "observacion")) (.cad [])⟩ := rfl
  rw [hred, h1, h2, h3]
  rfl

/-- Witness for C4 at the empty parsed object. -/
theorem C4_testigo :
    actualizarExpediente_datos (.obj []) = ⟨.cad [], .cad (cs "ROJO"), .cad []⟩ :=
  C4_teorema [] rfl rfl rfl

/-- Claim C5 (code bug, evaluated at the failing input): for an analysis
whose semaforo is the unrecognized value "ORANGE", the drafting step does
not fail — `generarDocumentoIA` inspects the flag nowhere and proceeds to
the provider call with the single combined prompt, leaving the
VERDE/AMARILLO versus ROJO template choice to the model. -/
theorem C5_teorema :
    generarDocumentoIA_paso (.obj [(cs "semaforo", .cad (cs "ORANGE"))]) =
      .ok (promptDocumento (formatearAnalisisComoTexto
        (.obj [(cs "semaforo", .cad (cs "ORANGE"))]))) := rfl

theorem terminaCon_docx_no_pdf (l : List Char) :
    terminaCon (cs ".docx") l = true → terminaCon (cs ".pdf") l = false := by
  unfold terminaCon
  have hdocx : (cs ".docx").reverse = 'x' :: 'c' :: 'o' :: 'd' :: '.' :: [] := rfl
  have hpdf : (cs ".pdf").reverse = 'f' :: 'd' :: 'p' :: '.' :: [] := rfl
  rw [hdocx, hpdf]
  cases hr : l.reverse with
  | nil => intro h; simp [empiezaCon] at h
  | cons c r =>
    intro h
    simp only [empiezaCon, Bool.and_eq_true, beq_iff_eq] at h ⊢
    rcases h with ⟨rfl, _⟩
    simp

/-- Claim C8: paths whose lower-cased name ends in ".pdf" take the PDF
route, those ending in ".docx" take the word-processor route, and all
others fail with the unsupported-format error. -/
theorem C8_teorema (archivoPath : List Char) :
    (terminaCon (cs ".pdf") (aMinusculas archivoPath) = true →
      extraerTexto_despacho archivoPath = .ok .pdf) ∧
    (terminaCon (cs ".docx") (aMinusculas archivoPath) = true →
      extraerTexto_despacho archivoPath = .ok .docx) ∧
    (terminaCon (cs ".pdf") (aMinusculas archivoPath) = false →
      terminaCon (cs ".docx") (aMinusculas archivoPath) = false →
      extraerTexto_despacho archivoPath = .error (cs "Formato de archivo no soportado")) := by
  refine ⟨fun h => ?_, fun h => ?_, fun h1 h2 => ?_⟩
  · simp [extraerTexto_despacho, h]
  · simp [extraerTexto_despacho, h, terminaCon_docx_no_pdf _ h]
  · simp [extraerTexto_despacho, h1, h2]

/-- Witness for C8 at three concrete paths, one per route. -/
theorem C8_testigo :
    extraerTexto_despacho (cs "acta.PdF") = .ok .pdf ∧
    extraerTexto_despacho (cs "acta.DocX") = .ok .docx ∧
    extraerTexto_despacho (cs "acta.txt") = .error (cs "Formato de archivo no soportado") :=
  ⟨(C8_teorema (cs "acta.PdF")).1 (by decide),
   (C8_teorema (cs "acta.DocX")).2.1 (by decide),
   (C8_teorema (cs "acta.txt")).2.2 (by decide) (by decide)⟩

/-- Claim C7: when the storage download fails, the handler terminates with
that error as the 500 response and the trace contains the download call
only — in particular neither of the two provider calls is reached. -/
theorem C7_teorema (env : Entorno) (archivoPath e : List Char)
    (h : env.descarga = .error e) :
    procesar env archivoPath = (.fallo500 e, [Evento.descargaStorage]) ∧
    Evento.llamadaIAAnalisis ∉ (procesar env archivoPath).2 ∧
    Evento.llamadaIADocumento ∉ (procesar env archivoPath).2 := by
  have hp : procesar env archivoPath = (.fallo500 e, [Evento.descargaStorage]) := by
    unfold procesar
    rw [h]
  refine ⟨hp, ?_, ?_⟩ <;> rw [hp] <;> simp

/-- Witness for C7 at the concrete failing environment. -/
theorem C7_testigo :
    procesar entornoFalloDescarga (cs "doc.pdf") =
      (.fallo500 (cs "Object not found"), [Evento.descargaStorage]) ∧
    Evento.llamadaIAAnalisis ∉ (procesar entornoFalloDescarga (cs "doc.pdf")).2 ∧
    Evento.llamadaIADocumento ∉ (procesar entornoFalloDescarga (cs "doc.pdf")).2 :=
  C7_teorema entornoFalloDescarga (cs "doc.pdf") (cs "Object not found") rfl

theorem quitaFencesAux_sublist : ∀ (n : Nat) (l : List Char),
    List.Sublist (quitaFencesAux n l) l := by
  intro n
  induction n with
  | zero => intro l; exact List.Sublist.refl l
  | succ n ih =>
    intro l
    cases l with
    | nil => exact List.Sublist.refl []
    | cons c resto =>
      simp only [quitaFencesAux]
      by_cases h1 : empiezaCon marcaFenceJson (c :: resto) = true
      · simp only [h1, if_true]
        exact (ih _).trans (List.drop_sublist _ _)
      · simp only [h1, if_false]
        by_cases h2 : empiezaCon marcaFence (c :: resto) = true
        · simp only [h2, if_true]
          exact (ih _).trans (List.drop_sublist _ _)
        · simp only [h2, if_false]
          exact (ih resto).cons₂ c

theorem quitaFences_sublist (l : List Char) : List.Sublist (quitaFences l) l :=
  quitaFencesAux_sublist l.length l

theorem all_de_sublist {p : Char → Bool} {m l : List Char}
    (h : List.Sublist m l) (hl : l.all p = true) : m.all p = true := by
  simp only [List.all_eq_true] at *
  exact fun x hx => hl x (h.subset hx)

theorem sinParLlaves_cola {c : Char} {l : List Char}
    (h : sinParLlaves (c :: l) = true) : sinParLlaves l = true := by
  unfold sinParLlaves at *
  by_cases hc : (c != llaveAbre) = true
  · rwa [List.dropWhile_cons, if_pos hc] at h
  · rw [List.dropWhile_cons, if_neg hc] at h
    have hl : l.all (fun c => c != llaveCierra) = true := by
      simp only [List.all_cons, Bool.and_eq_true] at h
      exact h.2
    exact all_de_sublist (List.dropWhile_sublist _) hl

theorem sinParLlaves_sublist : ∀ {m l : List Char},
    List.Sublist m l → sinParLlaves l = true → sinParLlaves m = true := by
  intro m l h
  induction h with
  | slnil => exact id
  | cons a _ ih => exact fun hl => ih (sinParLlaves_cola hl)
  | cons₂ a h ih =>
    intro hl
    unfold sinParLlaves at *
    by_cases ha : (a != llaveAbre) = true
    · rw [List.dropWhile_cons, if_pos ha] at hl ⊢
      exact ih hl
    · rw [List.dropWhile_cons, if_neg ha] at hl ⊢
      simp only [List.all_cons, Bool.and_eq_true] at hl ⊢
      exact ⟨hl.1, all_de_sublist h hl.2⟩

theorem extraeLlaves_sinPar {l : List Char} (h : sinParLlaves l = true) :
    extraeLlaves l = l := by
  have ht : nucleoLlaves l = [] := by
    unfold nucleoLlaves
    rw [List.dropWhile_eq_nil_iff.mpr ?_]
    · rfl
    · intro x hx
      exact (List.all_eq_true.mp h) x (List.mem_reverse.mp hx)
  unfold extraeLlaves
  rw [ht, if_pos rfl]

/-- Claim C3 (counterexample to the claim as stated): the input "null"
contains no brace pair, yet the extractor succeeds — the brace regex does
not match, the text passes through unchanged, and `JSON.parse("null")`
returns the JSON null value rather than throwing. -/
theorem C3_contraejemplo :
    sinParLlaves (cs "null") = true ∧
      limpiarYParsear (cs "null") = .ok JsonVal.nulo :=
  ⟨by decide, rfl⟩

/-- Claim C3 (amended): an input with no `{`/`}` pair fails with the parse
error provided its fence-stripped, trimmed text is not itself valid JSON;
with no brace pair the extraction step leaves the text unchanged, but the
remaining text can still parse (e.g. "null"), so the original claim's
unconditional failure does not hold. -/
theorem C3_teorema (textoIA : List Char)
    (h1 : sinParLlaves textoIA = true)
    (h2 : parseJson (trimJS (quitaFences textoIA)) = none) :
    limpiarYParsear textoIA = .error (cs "Error al parsear respuesta de la IA") := by
  unfold limpiarYParsear
  simp only [extraeLlaves_sinPar (sinParLlaves_sublist (quitaFences_sublist _) h1), h2]

/-- Witness for C3 at the concrete brace-free, non-JSON input. -/
theorem C3_testigo :
    limpiarYParsear (cs "hola mundo") =
      .error (cs "Error al parsear respuesta de la IA") :=
  C3_teorema (cs "hola mundo") (by decide) rfl

theorem empiezaCon_length : ∀ {m x : List Char},
    empiezaCon m x = true → m.length ≤ x.length := by
  intro m
  induction m with
  | nil => intro x _; simp
  | cons c m' ih =>
    intro x h
    cases x with
    | nil => simp [empiezaCon] at h
    | cons d x' =>
      simp only [empiezaCon, Bool.and_eq_true] at h
      simpa using ih h.2

theorem empiezaCon_append_izq : ∀ (m a b : List Char),
    m.length ≤ a.length → empiezaCon m (a ++ b) = empiezaCon m a := by
  intro m
  induction m with
  | nil => intro a b _; rfl
  | cons c m' ih =>
    intro a b h
    cases a with
    | nil => simp at h
    | cons d a' =>
      simp only [List.cons_append, empiezaCon, List.append_eq]
      rw [ih a' b (by simpa using h)]

theorem empiezaCon_append_cruce : ∀ (m a b : List Char),
    empiezaCon m (a ++ b) = true → a.length < m.length →
    ∃ c resto, b = c :: resto ∧ c ∈ m := by
  intro m
  induction m with
  | nil => intro a b _ hlen; simp at hlen
  | cons c m' ih =>
    intro a b h hlen
    cases a with
    | nil =>
      cases b with
      | nil => simp [empiezaCon] at h
      | cons d resto =>
        simp only [List.nil_append, empiezaCon, Bool.and_eq_true, beq_iff_eq] at h
        exact ⟨d, resto, rfl, by rw [← h.1]; exact List.mem_cons_self c m'⟩
    | cons e a' =>
      simp only [List.cons_append, empiezaCon, Bool.and_eq_true] at h
      obtain ⟨d, resto, hb, hd⟩ := ih a' b h.2 (by simpa using hlen)
      exact ⟨d, resto, hb, List.mem_cons_of_mem c hd⟩

theorem empiezaCon_append_sin_cruce {m a b : List Char}
    (hb : ∀ c, b.head? = some c → c ∉ m) :
    empiezaCon m (a ++ b) = empiezaCon m a := by
  by_cases hlen : m.length ≤ a.length
  · exact empiezaCon_append_izq m a b hlen
  · have h2 : empiezaCon m a = false := by
      cases hq : empiezaCon m a
      · rfl
      · exact absurd (empiezaCon_length hq) hlen
    rw [h2]
    cases hq : empiezaCon m (a ++ b)
    · rfl
    · obtain ⟨d, resto, hbeq, hd⟩ :=
        empiezaCon_append_cruce m a b hq (Nat.lt_of_not_le hlen)
      exact absurd hd (hb d (by rw [hbeq]; rfl))

theorem empiezaCon_append_marca : ∀ (m1 m2 x : List Char),
    empiezaCon (m1 ++ m2) x = true → empiezaCon m1 x = true := by
  intro m1
  induction m1 with
  | nil => intro _ _ _; rfl
  | cons c m' ih =>
    intro m2 x h
    cases x with
    | nil => simp [empiezaCon] at h
    | cons d x' =>
      simp only [List.cons_append, empiezaCon, Bool.and_eq_true] at h ⊢
      exact ⟨h.1, ih m2 x' h.2⟩

theorem marcaFence_sub : ∀ c ∈ marcaFence, c ∈ marcaFenceJson := by decide

theorem quitaFencesAux_suficiente : ∀ (n m : Nat) (l : List Char),
    l.length ≤ n → l.length ≤ m → quitaFencesAux n l = quitaFencesAux m l := by
  intro n
  induction n with
  | zero =>
    intro m l hn _
    have hl : l = [] := List.length_eq_zero.mp (Nat.le_zero.mp hn)
    subst hl
    cases m <;> rfl
  | succ n ih =>
    intro m l hn hm
    cases m with
    | zero =>
      have hl : l = [] := List.length_eq_zero.mp (Nat.le_zero.mp hm)
      subst hl; rfl
    | succ m =>
      cases l with
      | nil => rfl
      | cons c resto =>
        simp only [List.length_cons] at hn hm
        simp only [quitaFencesAux]
        by_cases h1 : empiezaCon marcaFenceJson (c :: resto) = true
        · rw [if_pos h1, if_pos h1]
          apply ih <;> (simp only [List.length_drop, List.length_cons]; omega)
        · rw [if_neg h1, if_neg h1]
          by_cases h2 : empiezaCon marcaFence (c :: resto) = true
          · rw [if_pos h2, if_pos h2]
            apply ih <;> (simp only [List.length_drop, List.length_cons]; omega)
          · rw [if_neg h2, if_neg h2, ih m resto (by omega) (by omega)]

theorem quitaFences_fence_json {l : List Char}
    (h : empiezaCon marcaFenceJson l = true) :
    quitaFences l = quitaFences (l.drop 7) := by
  have hlen : 7 ≤ l.length := empiezaCon_length h
  cases l with
  | nil => simp at hlen
  | cons c resto =>
    unfold quitaFences
    simp only [List.length_cons, quitaFencesAux, h, if_true]
    apply quitaFencesAux_suficiente <;>
      (simp only [List.length_drop, List.length_cons] at *; omega)

theorem quitaFences_fence {l : List Char}
    (h1 : empiezaCon marcaFenceJson l = false)
    (h2 : empiezaCon marcaFence l = true) :
    quitaFences l = quitaFences (l.drop 3) := by
  have hlen : 3 ≤ l.length := empiezaCon_length h2
  cases l with
  | nil => simp at hlen
  | cons c resto =>
    unfold quitaFences
    simp only [List.length_cons, quitaFencesAux, h1, h2, if_true, if_false]
    apply quitaFencesAux_suficiente <;>
      (simp only [List.length_drop, List.length_cons] at *; omega)

theorem quitaFences_paso {c : Char} {resto : List Char}
    (h1 : empiezaCon marcaFenceJson (c :: resto) = false)
    (h2 : empiezaCon marcaFence (c :: resto) = false) :
    quitaFences (c :: resto) = c :: quitaFences resto := by
  unfold quitaFences
  simp only [List.length_cons, quitaFencesAux]
  rw [if_neg (by simp [h1]), if_neg (by simp [h2])]

theorem quitaFences_append : ∀ (n : Nat) (a b : List Char), a.length ≤ n →
    (∀ c, b.head? = some c → c ∉ marcaFenceJson) →
    quitaFences (a ++ b) = quitaFences a ++ quitaFences b := by
  intro n
  induction n with
  | zero =>
    intro a b ha _
    have hl : a = [] := List.length_eq_zero.mp (Nat.le_zero.mp ha)
    subst hl
    rw [List.nil_append, show quitaFences ([] : List Char) = [] from rfl, List.nil_append]
  | succ n ih =>
    intro a b ha hb
    cases a with
    | nil =>
      rw [List.nil_append, show quitaFences ([] : List Char) = [] from rfl, List.nil_append]
    | cons c a' =>
      have hbJ : empiezaCon marcaFenceJson ((c :: a') ++ b) =
          empiezaCon marcaFenceJson (c :: a') := empiezaCon_append_sin_cruce hb
      have hbF : empiezaCon marcaFence ((c :: a') ++ b) =
          empiezaCon marcaFence (c :: a') :=
        empiezaCon_append_sin_cruce (fun d hd hmem => hb d hd (marcaFence_sub d hmem))
      simp only [List.length_cons] at ha
      by_cases h1 : empiezaCon marcaFenceJson (c :: a') = true
      · have h7 : 7 ≤ (c :: a').length := empiezaCon_length h1
        rw [quitaFences_fence_json (hbJ.trans h1 : _), quitaFences_fence_json h1,
          List.drop_append_of_le_length h7]
        apply ih _ b _ hb
        simp only [List.length_drop, List.length_cons]
        omega
      · have h1' : empiezaCon marcaFenceJson (c :: a') = false := by
          cases hq : empiezaCon marcaFenceJson (c :: a')
          · rfl
          · exact absurd hq h1
        by_cases h2 : empiezaCon marcaFence (c :: a') = true
        · have h3 : 3 ≤ (c :: a').length := empiezaCon_length h2
          rw [quitaFences_fence (hbJ.trans h1' : _) (hbF.trans h2 : _),
            quitaFences_fence h1' h2, List.drop_append_of_le_length h3]
          apply ih _ b _ hb
          simp only [List.length_drop, List.length_cons]
          omega
        · have h2' : empiezaCon marcaFence (c :: a') = false := by
            cases hq : empiezaCon marcaFence (c :: a')
            · rfl
            · exact absurd hq h2
          rw [List.cons_append, quitaFences_paso (by rw [← List.cons_append, hbJ]; exact h1')
            (by rw [← List.cons_append, hbF]; exact h2'), quitaFences_paso h1' h2',
            List.cons_append, ih a' b (by omega) hb]

theorem quitaFences_copia : ∀ (j p : List Char),
    (∀ n, n < j.length → empiezaCon marcaFence (j.drop n ++ p) = false) →
    quitaFences (j ++ p) = j ++ quitaFences p := by
  intro j
  induction j with
  | nil => intro p _; simp
  | cons c j' ih =>
    intro p h
    have h0 : empiezaCon marcaFence ((c :: j') ++ p) = false := by
      simpa using h 0 (by simp)
    have h0' : empiezaCon marcaFenceJson ((c :: j') ++ p) = false := by
      cases hq : empiezaCon marcaFenceJson ((c :: j') ++ p)
      · rfl
      · have hm : marcaFenceJson = marcaFence ++ cs "json" := rfl
        rw [hm] at hq
        have := empiezaCon_append_marca marcaFence (cs "json") _ hq
        rw [h0] at this
        exact absurd this (by simp)
    rw [List.cons_append] at h0 h0'
    rw [List.cons_append, quitaFences_paso h0' h0, ih p ?_, List.cons_append]
    intro n hn
    have := h (n + 1) (by simpa using Nat.succ_lt_succ hn)
    simpa using this

theorem empiezaCon_marca_cierra (u p : List Char) (hu : u.length < 3) :
    empiezaCon marcaFence (u ++ llaveCierra :: p) = false := by
  have hm : marcaFence = '\x60' :: '\x60' :: '\x60' :: [] := rfl
  rcases u with _ | ⟨x, _ | ⟨y, _ | ⟨z, u'⟩⟩⟩
  · rw [hm]; simp [empiezaCon, llaveCierra]
  · rw [hm]; simp [empiezaCon, llaveCierra]
  · rw [hm]; simp [empiezaCon, llaveCierra]
  · simp at hu; omega

theorem tieneFence_drop : ∀ {l : List Char}, tieneFence l = false →
    ∀ n, empiezaCon marcaFence (l.drop n) = false := by
  intro l
  induction l with
  | nil =>
    intro _ n
    simp only [List.drop_nil]
    rfl
  | cons c resto ih =>
    intro h n
    simp only [tieneFence, Bool.or_eq_false_iff] at h
    cases n with
    | zero => exact h.1
    | succ n => simpa using ih h.2 n

theorem sin_arranque_en_objeto {medio p : List Char}
    (hf : tieneFence (llaveAbre :: medio ++ [llaveCierra]) = false) :
    ∀ n, n < (llaveAbre :: medio ++ [llaveCierra]).length →
      empiezaCon marcaFence ((llaveAbre :: medio ++ [llaveCierra]).drop n ++ p) = false := by
  intro n hn
  have hnle : n ≤ (llaveAbre :: medio).length := by
    simp only [List.length_append, List.length_cons, List.length_nil] at hn ⊢
    omega
  have hdrop : (llaveAbre :: medio ++ [llaveCierra]).drop n =
      (llaveAbre :: medio).drop n ++ [llaveCierra] :=
    List.drop_append_of_le_length hnle
  rw [hdrop, List.append_assoc, List.singleton_append]
  by_cases hlen : 3 ≤ ((llaveAbre :: medio).drop n).length
  · have hm3 : marcaFence.length = 3 := rfl
    have hasoc : (llaveAbre :: medio).drop n ++ llaveCierra :: p =
        ((llaveAbre :: medio).drop n ++ [llaveCierra]) ++ p := by
      simp
    have hlarga : marcaFence.length ≤ ((llaveAbre :: medio).drop n ++ [llaveCierra]).length := by
      rw [hm3]
      simp only [List.length_append, List.length_cons, List.length_nil]
      omega
    rw [hasoc, empiezaCon_append_izq _ _ _ hlarga]
    have hd := tieneFence_drop hf n
    rw [hdrop] at hd
    exact hd
  · exact empiezaCon_marca_cierra _ _ (by omega)

theorem dropWhile_append_todos {p : Char → Bool} : ∀ {a : List Char} (b : List Char),
    a.all p = true → (a ++ b).dropWhile p = b.dropWhile p := by
  intro a
  induction a with
  | nil => intro b _; rfl
  | cons c a' ih =>
    intro b h
    simp only [List.all_cons, Bool.and_eq_true] at h
    rw [List.cons_append, List.dropWhile_cons, if_pos h.1]
    exact ih b h.2

theorem extraeLlaves_compuesto (X medio Y : List Char)
    (hX : X.all (fun c => c != llaveAbre) = true)
    (hY : Y.all (fun c => c != llaveCierra) = true) :
    extraeLlaves (X ++ ((llaveAbre :: medio ++ [llaveCierra]) ++ Y)) =
      llaveAbre :: medio ++ [llaveCierra] := by
  have hs : (X ++ ((llaveAbre :: medio ++ [llaveCierra]) ++ Y)).dropWhile
      (fun c => c != llaveAbre) = (llaveAbre :: medio ++ [llaveCierra]) ++ Y := by
    rw [dropWhile_append_todos _ hX]
    have hforma : (llaveAbre :: medio ++ [llaveCierra]) ++ Y =
        llaveAbre :: (medio ++ [llaveCierra] ++ Y) := by simp
    rw [hforma, List.dropWhile_cons, if_neg (by simp)]
  have hrev : (((llaveAbre :: medio ++ [llaveCierra]) ++ Y).reverse) =
      Y.reverse ++ (llaveCierra :: (medio.reverse ++ [llaveAbre])) := by
    simp
  have hYrev : Y.reverse.all (fun c => c != llaveCierra) = true := by
    simp only [List.all_eq_true] at hY ⊢
    exact fun x hx => hY x (List.mem_reverse.mp hx)
  have ht : nucleoLlaves (X ++ ((llaveAbre :: medio ++ [llaveCierra]) ++ Y)) =
      llaveAbre :: medio ++ [llaveCierra] := by
    unfold nucleoLlaves
    rw [hs, hrev, dropWhile_append_todos _ hYrev, List.dropWhile_cons, if_neg (by simp)]
    simp
  unfold extraeLlaves
  rw [ht, if_neg (by simp)]

theorem trimJS_objeto (medio : List Char) :
    trimJS (llaveAbre :: medio ++ [llaveCierra]) = llaveAbre :: medio ++ [llaveCierra] := by
  unfold trimJS
  have h1 : List.dropWhile esEspacioJS (llaveAbre :: medio ++ [llaveCierra]) =
      llaveAbre :: medio ++ [llaveCierra] := by
    rw [List.cons_append, List.dropWhile_cons, if_neg (by simp [esEspacioJS, llaveAbre]),
      ← List.cons_append]
  rw [h1]
  have hrev : ((llaveAbre :: medio ++ [llaveCierra]).reverse) =
      llaveCierra :: (medio.reverse ++ [llaveAbre]) := by
    simp
  rw [hrev, List.dropWhile_cons, if_neg (by simp [esEspacioJS, llaveCierra]), ← hrev,
    List.reverse_reverse]

/-- Claim C2 (counterexample to the claim as stated): a well-formed JSON
object whose string value itself contains a fence marker is corrupted by
the fence-stripping pass, which deletes markers everywhere in the text, so
the extractor returns a different object than the one embedded in the
input. -/
theorem C2_contraejemplo :
    parseJson (cs "\x7b\"a\":\"\x60\x60\x60\"\x7d") =
      some (.obj [(cs "a", .cad (cs "\x60\x60\x60"))]) ∧
    limpiarYParsear (cs "\x60\x60\x60json\n\x7b\"a\":\"\x60\x60\x60\"\x7d\n\x60\x60\x60") =
      .ok (.obj [(cs "a", .cad [])]) ∧
    (cs "\x60\x60\x60" : List Char) ≠ [] :=
  ⟨rfl, rfl, by decide⟩

/-- Claim C2 (amended): for an input built from a single well-formed JSON
object (written from its opening to its closing brace, with no fence
marker inside it) surrounded by arbitrary prose where the leading prose
has no opening brace and the trailing prose has no closing brace — fence
markers included — the cleaning-and-parse step returns exactly that
object: stripping fences leaves the object intact, the brace extraction
keeps exactly the object's characters, trimming is the identity on them,
and strict parsing recovers the object. -/
theorem C2_teorema (prosa1 prosa2 medio : List Char) (o : JsonVal)
    (hp1 : prosa1.all (fun c => c != llaveAbre) = true)
    (hp2 : prosa2.all (fun c => c != llaveCierra) = true)
    (hfence : tieneFence (llaveAbre :: medio ++ [llaveCierra]) = false)
    (hparse : parseJson (llaveAbre :: medio ++ [llaveCierra]) = some o) :
    limpiarYParsear (prosa1 ++ ((llaveAbre :: medio ++ [llaveCierra]) ++ prosa2)) =
      .ok o := by
  have hsplit1 : quitaFences (prosa1 ++ ((llaveAbre :: medio ++ [llaveCierra]) ++ prosa2)) =
      quitaFences prosa1 ++ quitaFences ((llaveAbre :: medio ++ [llaveCierra]) ++ prosa2) := by
    apply quitaFences_append prosa1.length _ _ (le_refl _)
    intro c hc
    simp only [List.cons_append, List.head?_cons, Option.some.injEq] at hc
    subst hc
    decide
  have hsplit2 : quitaFences ((llaveAbre :: medio ++ [llaveCierra]) ++ prosa2) =
      (llaveAbre :: medio ++ [llaveCierra]) ++ quitaFences prosa2 :=
    quitaFences_copia _ prosa2 (sin_arranque_en_objeto hfence)
  have hX : (quitaFences prosa1).all (fun c => c != llaveAbre) = true :=
    all_de_sublist (quitaFences_sublist _) hp1
  have hY : (quitaFences prosa2).all (fun c => c != llaveCierra) = true :=
    all_de_sublist (quitaFences_sublist _) hp2
  unfold limpiarYParsear
  rw [hsplit1, hsplit2, extraeLlaves_compuesto _ _ _ hX hY, trimJS_objeto, hparse]

/-- Witness for C2 at a concrete fenced, prose-wrapped object whose
values span the grammar: a string, a number, a boolean and an array. -/
theorem C2_testigo :
    limpiarYParsear (cs "Claro: \x60\x60\x60json\n" ++
        ((llaveAbre :: cs "\"a\":\"1\", \"valor\": 123, \"ok\": true, \"lista\": [1, null]"
          ++ [llaveCierra]) ++ cs "\n\x60\x60\x60 listo")) =
      .ok (.obj [(cs "a", .cad (cs "1")), (cs "valor", .num (cs "123")),
        (cs "ok", .booleano true), (cs "lista", .lista [.num (cs "1"), .nulo])]) :=
  C2_teorema (cs "Claro: \x60\x60\x60json\n") (cs "\n\x60\x60\x60 listo")
    (cs "\"a\":\"1\", \"valor\": 123, \"ok\": true, \"lista\": [1, null]")
    (.obj [(cs "a", .cad (cs "1")), (cs "valor", .num (cs "123")),
      (cs "ok", .booleano true), (cs "lista", .lista [.num (cs "1"), .nulo])])
    (by decide) (by decide) (by decide) rfl

end Coactivo

